import Mathlib

/-!
Verification of the MacJet power-monitor dashboard (`power_monitor.py`).

The development shallowly embeds the refresh-and-render loop of
`draw_dashboard`, the metric derivations it performs on a battery sample,
the `make_bar` progress-bar primitive, the `parse_pmset` status
classification and the `parse_thermal` extraction.  Python floats are
modelled as exact rationals (every arithmetic operation occurring in the
embedded code is a ratio of integers, so ℚ is a faithful model), Python
ints by ℤ/ℕ, and Python strings by `String`/`List Char`.
-/

set_option maxRecDepth 2048

namespace MacJet

/-- Python `int()` applied to a float/rational: truncation toward zero. -/
def pyInt (q : ℚ) : ℤ := if 0 ≤ q then ⌊q⌋ else -⌊-q⌋

/-- Python `divmod(a, 60)` for integers: floor division and matching
remainder, i.e. Euclidean division by a positive divisor. -/
def pyDivMod60 (a : ℤ) : ℤ × ℤ := (Int.ediv a 60, Int.emod a 60)

/-- Decimal rendering of `m` with Python's `{m:02d}` padding for
`0 ≤ m < 100` (the only range the dashboard feeds it). -/
def pad2 (m : ℤ) : String := if m < 10 then "0" ++ toString m else toString m

/-- The Python duration format (hours then zero-padded minutes, such as
1h 36m) applied to `divmod(int(hours * 60), 60)` — the format used for both *Time to Full* (line 596) and *Time to
Empty* (line 610) of `power_monitor.py`. -/
def fmtHoursMins (hours : ℚ) : String :=
  let mins := pyInt (hours * 60)
  let h := Int.ediv mins 60
  let m := Int.emod mins 60
  toString h ++ "h " ++ pad2 m ++ "m"

/-- Battery/adapter sample, the dict built by `parse_ioreg_battery`
(lines 117–184).  Fields parsed by `\d+` regexes are ℕ; `InstantAmperage`
is parsed by `-?\d+` and is ℤ. -/
structure BatteryInfo where
  current_capacity_mah : ℕ
  max_capacity_mah : ℕ
  design_capacity_mah : ℕ
  voltage_mv : ℕ
  amperage_ma : ℤ
  is_charging : Bool
  external_connected : Bool
  cycle_count : ℕ
  adapter_watts : ℕ
  adapter_voltage_mv : ℕ
  adapter_current_ma : ℕ
  system_power_mw : ℕ
  charging_current_ma : ℕ
  charging_voltage_mv : ℕ
  cell_voltages : List ℕ
deriving DecidableEq, Repr

/-- Power-management sample, the dict built by `parse_pmset`. -/
structure PmsetInfo where
  percentage : ℕ
  status : String
  time_remaining : String
deriving DecidableEq, Repr

/-- Thermal sample, the dict built by `parse_thermal`. -/
structure ThermalInfo where
  cpu_speed_limit : ℕ
deriving DecidableEq, Repr

/-- Memory sample, the dict built by `get_memory_info`. -/
structure MemoryInfo where
  total_gb : ℚ
  app_gb : ℚ
  wired_gb : ℚ
  compressed_gb : ℚ
  cached_gb : ℚ
  free_gb : ℚ
  purgeable_gb : ℚ
  used_pct : ℚ
deriving DecidableEq, Repr

/-- Disk sample, the dict built by `get_disk_info`. -/
structure DiskInfo where
  total_gb : ℚ
  used_gb : ℚ
  available_gb : ℚ
  purgeable_gb : ℚ
  used_pct : ℤ
deriving DecidableEq, Repr

/-! ## The progress-bar primitive (`make_bar`, lines 398–417) -/

/-- Model of `make_bar(pct, width)`: clamp `pct` to [0,100], fill
`int(width * pct / 100)` glyphs, pad with empty glyphs to `width`. -/
def make_bar (pct : ℚ) (width : ℕ) (fill : Char := '#') (empty : Char := '.') : String :=
  let p := max 0 (min 100 pct)
  let filled := (pyInt ((width : ℚ) * p / 100)).toNat
  String.mk (List.replicate filled fill ++ List.replicate (width - filled) empty)

/-! ## Battery metric derivations (from `draw_dashboard`) -/

/-- Battery health (line 572):
`max/design*100 if design > 0 else 0`. -/
def battery_health (b : BatteryInfo) : ℚ :=
  if 0 < b.design_capacity_mah then
    (b.max_capacity_mah : ℚ) / (b.design_capacity_mah : ℚ) * 100
  else 0

/-- The charging / discharging / neither section of the dashboard
(lines 582–611): which block is rendered, the power figure it shows, and
the optional time-estimate line (`none` when the source skips the line). -/
inductive ChargeSection where
  | charging (powerW : ℚ) (timeToFull : Option String)
  | discharging (powerW : ℚ) (timeToEmpty : Option String)
  | neither
deriving DecidableEq, Repr

/-- Lines 583–611 of `draw_dashboard`: if `is_charging`, render the
CHARGING block (power = `charging_current_ma * voltage_mv / 1e6`; the
*Time to Full* line only when `charging_current_ma > 0`); otherwise if
not `external_connected`, render the DISCHARGING block (power from
`abs(amperage_ma)`; the *Time to Empty* line only when that is > 0);
otherwise neither block. -/
def charge_section (b : BatteryInfo) : ChargeSection :=
  if b.is_charging then
    ChargeSection.charging
      ((b.charging_current_ma : ℚ) * (b.voltage_mv : ℚ) / 1000000)
      (if 0 < b.charging_current_ma then
        some (fmtHoursMins
          (((b.max_capacity_mah : ℚ) - (b.current_capacity_mah : ℚ)) /
            (b.charging_current_ma : ℚ)))
      else none)
  else if b.external_connected = false then
    let discharge_ma : ℤ := |b.amperage_ma|
    ChargeSection.discharging
      ((discharge_ma : ℚ) * (b.voltage_mv : ℚ) / 1000000)
      (if 0 < discharge_ma then
        some (fmtHoursMins ((b.current_capacity_mah : ℚ) / (discharge_ma : ℚ)))
      else none)
  else ChargeSection.neither

/-- The *Time to Full* line of the charging block, when one is rendered. -/
def timeToFullOf : ChargeSection → Option String
  | ChargeSection.charging _ t => t
  | _ => none

/-- Value `system_w` (line 522): system power draw in watts. -/
def system_w (b : BatteryInfo) : ℚ := (b.system_power_mw : ℚ) / 1000

/-- Value `charge` of the power-balance section (line 620): charging power in
watts when charging, else 0. -/
def charge_w (b : BatteryInfo) : ℚ :=
  if b.is_charging then (b.charging_current_ma : ℚ) * (b.voltage_mv : ℚ) / 1000000 else 0

/-- Value `total` of the power-balance section (line 621). -/
def total_w (b : BatteryInfo) : ℚ := system_w b + charge_w b

/-- Value `headroom` of the power-balance section (line 622). -/
def headroom_w (b : BatteryInfo) : ℚ := (b.adapter_watts : ℚ) - total_w b

/-- Value `pct` of the power-balance section (line 623):
`min(100, total / adapter_max * 100) if adapter_max > 0 else 0`. -/
def balance_pct (b : BatteryInfo) : ℚ :=
  if 0 < b.adapter_watts then min 100 (total_w b / (b.adapter_watts : ℚ) * 100) else 0

/-- The utilization percentage displayed by the power-balance section:
the section exists only when `external_connected` (line 614), and then
always renders the numeric `pct` (line 628). -/
def balance_shown (b : BatteryInfo) : Option ℚ :=
  if b.external_connected then some (balance_pct b) else none

/-! ## `parse_pmset` status classification (lines 209–218) -/

/-- Does `hay` start with `needle`?  (model of Python `str.startswith`,
used to build up substring containment). -/
def strStarts : List Char → List Char → Bool
  | _, [] => true
  | [], _ :: _ => false
  | a :: as, b :: bs => a == b && strStarts as bs

/-- Does `needle` occur contiguously inside `hay`?  Model of the Python
substring test `needle in hay`. -/
def strContains : List Char → List Char → Bool
  | [], needle => strStarts [] needle
  | h :: t, needle => strStarts (h :: t) needle || strContains t needle

/-- ASCII lowering of a string, modelling `str.lower()` on the
command output (the keywords searched for are pure ASCII). -/
def lowered (s : List Char) : List Char := s.map Char.toLower

/-- Lines 209–218 of `parse_pmset`: classify the battery status from
the raw `pmset -g batt` output text. -/
def pmset_status (out : List Char) : String :=
  if strContains (lowered out) "charging".toList
      ∧ ¬ strContains (lowered out) "discharging".toList then "Charging"
  else if strContains (lowered out) "discharging".toList then "Discharging"
  else if strContains (lowered out) "charged".toList then "Fully Charged"
  else if strContains out "AC Power".toList then "On AC"
  else "Unknown"

/-! ## `parse_thermal` (lines 238–242) -/

/-- Digit run to a number (the `int(...)` of a `(\d+)` capture). -/
def digitsToNat (ds : List Char) : ℕ :=
  ds.foldl (fun a c => a * 10 + (c.toNat - 48)) 0

/-- Attempt of the regex `CPU_Speed_Limit\s*=\s*(\d+)` at the head of
`s`: the literal key, optional whitespace, `=`, optional whitespace,
then at least one digit. -/
def speedLimitAt (s : List Char) : Option ℕ :=
  if strStarts s "CPU_Speed_Limit".toList then
    match (s.drop 15).dropWhile Char.isWhitespace with
    | '=' :: rest =>
      let ds := (rest.dropWhile Char.isWhitespace).takeWhile Char.isDigit
      if ds.isEmpty then none else some (digitsToNat ds)
    | _ => none
  else none

/-- Model of `re.search` of `CPU_Speed_Limit\s*=\s*(\d+)` over the whole output:
first position at which the pattern matches. -/
def findSpeedLimit : List Char → Option ℕ
  | [] => none
  | c :: t =>
    match speedLimitAt (c :: t) with
    | some n => some n
    | none => findSpeedLimit t

/-- Model of `parse_thermal` (lines 238–242): the matched figure, defaulting to
100 when the regex finds nothing in the output. -/
def parse_thermal (out : List Char) : ThermalInfo :=
  match findSpeedLimit out with
  | some n => ⟨n⟩
  | none => ⟨100⟩

/-! ## Provider failure defaults

`run_cmd` (lines 79–85) returns `""` when the underlying command fails
or exceeds its 5-second timeout.  Each value below is what the
corresponding provider returns on that empty output, read off from the
provider's per-field `else` fallbacks. -/

/-- Value of `parse_ioreg_battery` on empty output — every regex fails, so every field takes
its fallback (lines 122–183): zeros, `False` flags, `[0, 0, 0]` cells. -/
def ioreg_failure : BatteryInfo :=
  { current_capacity_mah := 0, max_capacity_mah := 0, design_capacity_mah := 0
    voltage_mv := 0, amperage_ma := 0, is_charging := false
    external_connected := false, cycle_count := 0, adapter_watts := 0
    adapter_voltage_mv := 0, adapter_current_ma := 0, system_power_mw := 0
    charging_current_ma := 0, charging_voltage_mv := 0, cell_voltages := [0, 0, 0] }

/-- Value of `parse_pmset` on empty output — percentage fallback 0 (line 206), status falls
through to the computed classification of the empty text, time fallback
`'N/A'` (line 222). -/
def pmset_failure : PmsetInfo :=
  { percentage := 0, status := pmset_status [], time_remaining := "N/A" }

/-- Value of `get_cpu_usage` on empty output: 0 when the regex fails (line 259). -/
def cpu_failure : ℚ := 0

/-- Value of `get_memory_info` when `sysctl`, `vm_stat` and `pagesize` all return
`""`: `total_bytes` falls back to `16 * 1024**3` (line 288), the page
table is empty so every `pages.get(..., 0)` is 0, and `page_size` falls
back to 16384 (line 301). -/
def memory_failure : MemoryInfo :=
  let total_bytes : ℚ := 16 * 1024 ^ 3
  let page_size : ℚ := 16384
  let free : ℚ := 0 * page_size
  let active : ℚ := 0 * page_size
  let inactive : ℚ := 0 * page_size
  let speculative : ℚ := 0 * page_size
  let wired : ℚ := 0 * page_size
  let compressed : ℚ := 0 * page_size
  let purgeable : ℚ := 0 * page_size
  let app_memory := active + wired
  let cached := inactive + purgeable + speculative
  { total_gb := total_bytes / 1024 ^ 3
    app_gb := app_memory / 1024 ^ 3
    wired_gb := wired / 1024 ^ 3
    compressed_gb := compressed / 1024 ^ 3
    cached_gb := cached / 1024 ^ 3
    free_gb := free / 1024 ^ 3
    purgeable_gb := purgeable / 1024 ^ 3
    used_pct := (app_memory + compressed) / total_bytes * 100 }

/-- Value of `get_disk_info` on empty output — the initial all-zero dict survives: no regex
matches, `used_gb = 0` and `total_gb = 0` leave the recomputations
(lines 384–389) inert. -/
def disk_failure : DiskInfo :=
  { total_gb := 0, used_gb := 0, available_gb := 0, purgeable_gb := 0, used_pct := 0 }

/-! ## The refresh-and-render loop of `draw_dashboard` (lines 461–646)

One iteration of the `while True` loop is a `tick`.  The loop state is
the data variables of lines 461–466; the tick input is the environment
the iteration observes: `time.time()` at the top of the body, the
pending keystroke of `stdscr.getch()`, the samples the six providers
would return if invoked this tick, and the wall-clock time those six
sequential `run_cmd` invocations consume (strictly positive in reality;
carried so the instant at which the batch commit happens is expressible). -/

/-- A pending keystroke: `q`/`Q`, `r`/`R`, or anything else
(`getch` returning no key behaves like any other non-command key). -/
inductive KeyIn where
  | keyQ
  | keyR
  | keyOther
deriving DecidableEq, Repr

/-- One batch of results from the six sample providers. -/
structure Samples where
  battery : BatteryInfo
  pmset : PmsetInfo
  thermal : ThermalInfo
  cpu : ℚ
  memory : MemoryInfo
  disk : DiskInfo
deriving DecidableEq, Repr

/-- The mutable variables of the loop (lines 461–466): the six cached
sample fields (five `None`-able dicts plus the numeric `cpu`, whose
"unset" sentinel is its initial 0) and `last_update`. -/
structure LoopState where
  battery : Option BatteryInfo
  pmset : Option PmsetInfo
  thermal : Option ThermalInfo
  cpu : ℚ
  memory : Option MemoryInfo
  disk : Option DiskInfo
  last_update : ℚ
deriving DecidableEq, Repr

/-- Lines 461–466: `last_update = 0`, all sample variables `None`,
`cpu = 0`. -/
def initState : LoopState :=
  { battery := none, pmset := none, thermal := none, cpu := 0
    memory := none, disk := none, last_update := 0 }

/-- Constant `update_interval = 10` (line 462). -/
def update_interval : ℚ := 10

/-- Identifier of a sample provider, in the order lines 480–485 call
them. -/
inductive Provider where
  | battery
  | pmset
  | thermal
  | cpu
  | memory
  | disk
deriving DecidableEq, Repr

/-- The input one loop iteration observes. -/
structure TickInput where
  now : ℚ
  key : KeyIn
  env : Samples
  provDur : ℚ
deriving DecidableEq, Repr

/-- The observable outcome of one loop iteration: the state it leaves,
whether it broke out of the loop, which providers it invoked (in call
order), whether the render section of the body ran, and — when a
refresh batch was committed — the wall-clock instant of that commit
(`now` plus the time the six provider calls took). -/
structure TickOut where
  state : LoopState
  quit : Bool
  invoked : List Provider
  rendered : Bool
  commitTime : Option ℚ
deriving DecidableEq, Repr

/-- All six providers in the call order of lines 480–485. -/
def allProviders : List Provider :=
  [Provider.battery, Provider.pmset, Provider.thermal,
   Provider.cpu, Provider.memory, Provider.disk]

/-- One iteration of the `while True` body (lines 468–646):
read the clock; `q` breaks out; `r` zeroes `last_update` (line 476,
forcing the elapsed-time check); refresh all six samples and set
`last_update = current_time` when `current_time - last_update >=
update_interval` (lines 479–486); skip the render when `battery` is
still `None` (line 489), otherwise render the cached state. -/
def tick (st : LoopState) (i : TickInput) : TickOut :=
  match i.key with
  | KeyIn.keyQ =>
    { state := st, quit := true, invoked := [], rendered := false, commitTime := none }
  | k =>
    let lu : ℚ := if k = KeyIn.keyR then 0 else st.last_update
    if update_interval ≤ i.now - lu then
      let st' : LoopState :=
        { battery := some i.env.battery, pmset := some i.env.pmset
          thermal := some i.env.thermal, cpu := i.env.cpu
          memory := some i.env.memory, disk := some i.env.disk
          last_update := i.now }
      { state := st', quit := false, invoked := allProviders
        rendered := true, commitTime := some (i.now + i.provDur) }
    else
      let st' : LoopState := { st with last_update := lu }
      { state := st', quit := false, invoked := []
        rendered := st'.battery.isSome, commitTime := none }

/-- Run the loop from `st` over a list of tick inputs, stopping when an
iteration breaks out. -/
def run (st : LoopState) : List TickInput → LoopState
  | [] => st
  | i :: rest =>
    let o := tick st i
    if o.quit then st else run o.state rest

/-- The trace of iteration outcomes of a run (the breaking iteration,
if any, is the last element). -/
def trace (st : LoopState) : List TickInput → List TickOut
  | [] => []
  | i :: rest =>
    let o := tick st i
    if o.quit then [o] else o :: trace o.state rest

/-- All sample fields still hold their initial pre-refresh values. -/
def allUnset (st : LoopState) : Prop :=
  st.battery = none ∧ st.pmset = none ∧ st.thermal = none ∧
  st.cpu = 0 ∧ st.memory = none ∧ st.disk = none

/-- All six sample fields hold exactly the batch `env`. -/
def isBatch (env : Samples) (st : LoopState) : Prop :=
  st.battery = some env.battery ∧ st.pmset = some env.pmset ∧
  st.thermal = some env.thermal ∧ st.cpu = env.cpu ∧
  st.memory = some env.memory ∧ st.disk = some env.disk

/-- The six sample fields of `st'` agree with those of `st`
(`last_update` may differ). -/
def sampleEq (st' st : LoopState) : Prop :=
  st'.battery = st.battery ∧ st'.pmset = st.pmset ∧
  st'.thermal = st.thermal ∧ st'.cpu = st.cpu ∧
  st'.memory = st.memory ∧ st'.disk = st.disk

/-! ## Concrete inputs used by witnesses and counterexamples -/

/-- A healthy battery sample: design 8000 mAh, max 7500 mAh. -/
def bHealthy : BatteryInfo :=
  { ioreg_failure with design_capacity_mah := 8000, max_capacity_mah := 7500 }

/-- The discharge scenario of the spec: current −2500 mA, voltage
11100 mV, 4000 mAh held, on battery. -/
def bDischarge : BatteryInfo :=
  { ioreg_failure with amperage_ma := -2500, voltage_mv := 11100
                       current_capacity_mah := 4000 }

/-- A charging battery whose `ChargingCurrent` reads 0. -/
def bTrickle : BatteryInfo :=
  { ioreg_failure with is_charging := true, charging_current_ma := 0
                       max_capacity_mah := 5000, current_capacity_mah := 4000
                       voltage_mv := 11000, external_connected := true }

/-- A charging battery at 2000 mA, 4000 of 5000 mAh held. -/
def bCharging : BatteryInfo :=
  { ioreg_failure with is_charging := true, charging_current_ma := 2000
                       max_capacity_mah := 5000, current_capacity_mah := 4000
                       voltage_mv := 11000, external_connected := true }

/-- External power connected but the adapter wattage reads 0. -/
def bAdapterZero : BatteryInfo :=
  { ioreg_failure with external_connected := true, adapter_watts := 0
                       system_power_mw := 5000 }

/-- External power from a 96 W adapter, system drawing 12 W. -/
def bAdapter96 : BatteryInfo :=
  { ioreg_failure with external_connected := true, adapter_watts := 96
                       system_power_mw := 12000 }

/-- A fixed provider batch for loop-model witnesses. -/
def sample0 : Samples :=
  { battery := bHealthy, pmset := pmset_failure, thermal := ⟨100⟩
    cpu := 42, memory := memory_failure, disk := disk_failure }

/-- A loop state already holding one full batch, refreshed at t = 100. -/
def stCached : LoopState :=
  { battery := some bHealthy, pmset := some pmset_failure, thermal := some ⟨100⟩
    cpu := 42, memory := some memory_failure, disk := some disk_failure
    last_update := 100 }

/-- A tick 5 s after the last refresh, no key pending. -/
def iIdle : TickInput :=
  { now := 105, key := KeyIn.keyOther, env := sample0, provDur := 1 }

/-- A tick 11 s after the last refresh, no key pending. -/
def iDue : TickInput :=
  { now := 111, key := KeyIn.keyOther, env := sample0, provDur := 1 }

/-- A first tick at t = 100 whose six provider calls take 3 s. -/
def iLong : TickInput :=
  { now := 100, key := KeyIn.keyOther, env := sample0, provDur := 3 }

/-- A first tick at t = 50, no key pending. -/
def iFresh : TickInput :=
  { now := 50, key := KeyIn.keyOther, env := sample0, provDur := 1 }

/-! ## C4: the progress-bar primitive -/

/-- C4: for every percentage `p` (including `p < 0` and `p > 100`) and
every width `w`, `make_bar` returns a string of exactly `w` glyphs, and
it clamps its input to [0, 100]: `make_bar (-5) w = make_bar 0 w` and
`make_bar 150 w = make_bar 100 w`. -/
theorem make_bar_length_and_clamp (pct : ℚ) (w : ℕ) :
    (make_bar pct w).length = w ∧
    make_bar (-5) w = make_bar 0 w ∧
    make_bar 150 w = make_bar 100 w := by
  refine ⟨?_, ?_, ?_⟩
  · have hp0 : (0 : ℚ) ≤ max 0 (min 100 pct) := le_max_left _ _
    have hp1 : max 0 (min 100 pct) ≤ 100 := max_le (by norm_num) (min_le_left _ _)
    have hq0 : (0 : ℚ) ≤ (w : ℚ) * max 0 (min 100 pct) / 100 := by positivity
    have hqw : (w : ℚ) * max 0 (min 100 pct) / 100 ≤ (w : ℚ) := by
      rw [div_le_iff₀ (by norm_num : (0:ℚ) < 100)]
      calc (w : ℚ) * max 0 (min 100 pct) ≤ (w : ℚ) * 100 :=
            mul_le_mul_of_nonneg_left hp1 (Nat.cast_nonneg w)
        _ = (w : ℚ) * 100 := rfl
    have hfl : (pyInt ((w : ℚ) * max 0 (min 100 pct) / 100)).toNat ≤ w := by
      rw [pyInt, if_pos hq0, Int.toNat_le]
      calc ⌊(w : ℚ) * max 0 (min 100 pct) / 100⌋ ≤ ⌊(w : ℚ)⌋ := Int.floor_le_floor hqw
        _ = (w : ℤ) := Int.floor_natCast w
    simp only [make_bar, String.length, String.mk, List.length_append,
      List.length_replicate]
    omega
  · have h : max 0 (min 100 (-5 : ℚ)) = max 0 (min 100 (0 : ℚ)) := by
      rw [min_eq_right (by norm_num : (-5:ℚ) ≤ 100),
          min_eq_right (by norm_num : (0:ℚ) ≤ 100),
          max_eq_left (by norm_num : (-5:ℚ) ≤ 0), max_eq_right le_rfl]
    simp only [make_bar, h]
  · have h : max 0 (min 100 (150 : ℚ)) = max 0 (min 100 (100 : ℚ)) := by
      rw [min_eq_left (by norm_num : (100:ℚ) ≤ 150), min_eq_left le_rfl]
    simp only [make_bar, h]

/-! ## C3: battery health -/

/-- C3: battery health% equals `maxCapacity / designCapacity × 100` when
`designCapacity > 0`, and equals 0 when `designCapacity = 0`; the
derivation is a total function, so no arithmetic fault can be raised. -/
theorem battery_health_spec (b : BatteryInfo) :
    (b.design_capacity_mah = 0 → battery_health b = 0) ∧
    (0 < b.design_capacity_mah →
      battery_health b = (b.max_capacity_mah : ℚ) / (b.design_capacity_mah : ℚ) * 100) := by
  constructor
  · intro h
    simp [battery_health, h]
  · intro h
    rw [battery_health, if_pos h]

/-- Witness for C3 at a battery with design capacity 8000 and max 7500,
and at the all-defaults battery whose design capacity is 0. -/
theorem battery_health_spec_witness :
    battery_health bHealthy = (7500 : ℚ) / 8000 * 100 ∧
    battery_health ioreg_failure = 0 := by
  constructor
  · have h := (battery_health_spec bHealthy).2 (by with_unfolding_all decide)
    rw [h]
    norm_num [bHealthy, ioreg_failure]
  · exact (battery_health_spec ioreg_failure).1 rfl

/-! ## C7: the discharge scenario -/

/-- C7: at current −2500 mA, voltage 11100 mV, 4000 mAh held,
`is_charging` false and `external_connected` false, the discharging
block is rendered with power 2500 × 11100 / 10⁶ = 27.75 W and
time-to-empty 4000/2500 = 1.6 h formatted as "1h 36m". -/
theorem discharge_scenario :
    charge_section bDischarge
      = ChargeSection.discharging (2775 / 100) (some "1h 36m") := by
  with_unfolding_all decide

/-! ## C5: time to full -/

/-- C5 counterexample: on a charging battery whose `ChargingCurrent`
reads 0 the code renders no *Time to Full* line at all — the derivation
yields no "-" display marker. -/
theorem time_to_full_no_marker :
    timeToFullOf (charge_section bTrickle) = none ∧
    timeToFullOf (charge_section bTrickle) ≠ some "-" := by
  with_unfolding_all decide

/-- C5 (amended): for every charging battery sample with
`chargingCurrent ≤ 0` the *Time to Full* line is omitted entirely —
no value (in particular never a negative or infinite numeric value, and
not a "-" marker) is displayed; for `chargingCurrent > 0` the displayed
duration is `(maxCapacity − currentCapacity) / chargingCurrent` hours. -/
theorem time_to_full_amended (b : BatteryInfo) (h : b.is_charging = true) :
    (b.charging_current_ma = 0 → timeToFullOf (charge_section b) = none) ∧
    (0 < b.charging_current_ma →
      timeToFullOf (charge_section b) =
        some (fmtHoursMins (((b.max_capacity_mah : ℚ) - (b.current_capacity_mah : ℚ)) /
          (b.charging_current_ma : ℚ)))) := by
  constructor
  · intro hc
    simp [charge_section, h, hc, timeToFullOf]
  · intro hc
    simp [charge_section, h, hc, timeToFullOf]

/-- Witness for C5 at a battery charging 1000 mAh of deficit at
2000 mA: the displayed duration is half an hour. -/
theorem time_to_full_amended_witness :
    timeToFullOf (charge_section bCharging) = some "0h 30m" := by
  have h := (time_to_full_amended bCharging rfl).2 (by with_unfolding_all decide)
  rw [h]
  with_unfolding_all decide

/-! ## C6: power-balance utilization -/

/-- C6 counterexample: with external power connected and
`adapterRatedWatts = 0` the power-balance section still renders a
numeric utilization — the defined fallback 0 — not an "undefined"
display marker. -/
theorem balance_zero_adapter_numeric :
    balance_shown bAdapterZero = some 0 ∧
    (balance_shown bAdapterZero).isSome = true := by
  with_unfolding_all decide

/-- C6 (amended): with external power connected, the power-balance
utilization% is the defined fallback 0 (no divide-by-zero fault, but a
numeric 0, not an "undefined" marker) when `adapterRatedWatts = 0`, and
equals `min(100, (systemPower + chargingPower)/adapterRatedWatts × 100)`
when `adapterRatedWatts > 0`. -/
theorem balance_amended (b : BatteryInfo) (hext : b.external_connected = true) :
    (b.adapter_watts = 0 → balance_shown b = some 0) ∧
    (0 < b.adapter_watts →
      balance_shown b =
        some (min 100 ((system_w b + charge_w b) / (b.adapter_watts : ℚ) * 100))) := by
  constructor
  · intro h
    simp [balance_shown, hext, balance_pct, h]
  · intro h
    simp [balance_shown, hext, balance_pct, h, total_w]

/-- Witness for C6 at a 96 W adapter with the system drawing 12 W and no
charging: utilization 12.5%. -/
theorem balance_amended_witness :
    balance_shown bAdapter96 = some (25 / 2) := by
  have h := (balance_amended bAdapter96 rfl).2 (by with_unfolding_all decide)
  rw [h]
  with_unfolding_all decide

/-! ## C9: the status classification of `parse_pmset` -/

/-- If `hay` starts with `p ++ n`, then `n` occurs in `hay`. -/
lemma strContains_of_strStarts_append (p : List Char) :
    ∀ hay n : List Char, strStarts hay (p ++ n) = true → strContains hay n = true := by
  induction p with
  | nil =>
    intro hay n h
    cases hay with
    | nil => simpa [strContains] using h
    | cons b t =>
      simp only [List.nil_append] at h
      simp [strContains, h]
  | cons a p ih =>
    intro hay n h
    cases hay with
    | nil => simp [strStarts] at h
    | cons b t =>
      simp only [List.cons_append, strStarts, Bool.and_eq_true] at h
      have := ih t n h.2
      simp [strContains, this]

/-- Substring containment of a right factor: if `p ++ n` occurs in
`hay`, so does `n`. -/
lemma strContains_append_right (p n : List Char) :
    ∀ hay : List Char, strContains hay (p ++ n) = true → strContains hay n = true := by
  intro hay
  induction hay with
  | nil =>
    intro h
    cases hp : p ++ n with
    | nil =>
      have hn : n = [] := by
        cases (List.append_eq_nil).mp hp with
        | intro h1 h2 => exact h2
      simp [strContains, hn, strStarts]
    | cons c t =>
      rw [hp] at h
      simp [strContains, strStarts] at h
  | cons b t ih =>
    intro h
    simp only [strContains, Bool.or_eq_true] at h
    cases h with
    | inl h =>
      exact strContains_of_strStarts_append p (b :: t) n h
    | inr h =>
      have := ih h
      simp [strContains, this]

/-- The word "charging" occurs wherever "discharging" occurs. -/
lemma strContains_charging_of_discharging (s : List Char)
    (h : strContains s "discharging".toList = true) :
    strContains s "charging".toList = true := by
  have hsplit : "discharging".toList = "dis".toList ++ "charging".toList := by decide
  rw [hsplit] at h
  exact strContains_append_right "dis".toList "charging".toList s h

/-- C9: output containing "discharging" (case-insensitively) is
classified 'Discharging', never 'Charging' — even though "charging" is a
substring of "discharging" — and 'Charging' is produced exactly when the
lowered output contains "charging" but not "discharging". -/
theorem pmset_status_classification (out : List Char) :
    (strContains (lowered out) "discharging".toList = true →
      pmset_status out = "Discharging" ∧ pmset_status out ≠ "Charging") ∧
    (pmset_status out = "Charging" ↔
      (strContains (lowered out) "charging".toList = true ∧
        strContains (lowered out) "discharging".toList = false)) := by
  constructor
  · intro hdis
    have hfirst : ¬ (strContains (lowered out) "charging".toList = true ∧
        ¬ strContains (lowered out) "discharging".toList = true) := by
      rintro ⟨-, hnd⟩
      exact hnd hdis
    rw [pmset_status, if_neg hfirst, if_pos hdis]
    exact ⟨rfl, by decide⟩
  · constructor
    · intro h
      by_cases h1 : strContains (lowered out) "charging".toList = true ∧
          ¬ strContains (lowered out) "discharging".toList = true
      · exact ⟨h1.1, by simpa using h1.2⟩
      · exfalso
        rw [pmset_status, if_neg h1] at h
        split_ifs at h <;> simp_all
    · rintro ⟨hc, hnd⟩
      have h1 : strContains (lowered out) "charging".toList = true ∧
          ¬ strContains (lowered out) "discharging".toList = true :=
        ⟨hc, fun hx => by rw [hx] at hnd; exact Bool.noConfusion hnd⟩
      rw [pmset_status, if_pos h1]

/-- Witness for C9 on two realistic `pmset -g batt` outputs. -/
theorem pmset_status_classification_witness :
    pmset_status " -InternalBattery-0 (id=123)  82%; discharging; 3:20 remaining".toList
      = "Discharging" ∧
    pmset_status " -InternalBattery-0 (id=123)  82%; charging; 1:10 remaining".toList
      = "Charging" := by
  constructor
  · exact (pmset_status_classification _).1 (by decide) |>.1
  · exact (pmset_status_classification _).2.mpr (by decide)

/-! ## C10: the thermal failure default -/

/-- C10 counterexample: the thermal provider is *not* the only provider
with a non-zero failure default — on failed queries the memory
provider's total falls back to 16 GB. -/
theorem memory_failure_total_nonzero :
    memory_failure.total_gb = 16 ∧ memory_failure.total_gb ≠ 0 := by
  with_unfolding_all decide

/-- C10 (amended): when the thermal query fails or times out (empty
output) or its output contains no `CPU_Speed_Limit` figure, the Thermal
Sample's `cpu_speed_limit` defaults to 100 (unthrottled) rather than 0,
so a provider failure is rendered as 'no throttling'; its failure
default is non-zero unlike the zero-valued defaults of the battery, cpu
and disk providers — but not uniquely so, since the memory provider's
total falls back to the non-zero 16 GB. -/
theorem parse_thermal_failure_default (out : List Char)
    (h : findSpeedLimit out = none) :
    parse_thermal out = ⟨100⟩ ∧ parse_thermal [] = ⟨100⟩ ∧
    ioreg_failure.system_power_mw = 0 ∧ cpu_failure = 0 ∧
    disk_failure.total_gb = 0 ∧ memory_failure.total_gb = 16 := by
  refine ⟨?_, by decide, rfl, rfl, rfl, by with_unfolding_all decide⟩
  rw [parse_thermal, h]

/-- Witness for C10 on output that mentions no CPU speed limit. -/
theorem parse_thermal_failure_default_witness :
    parse_thermal "Note: No thermal warning level has been recorded".toList = ⟨100⟩ :=
  (parse_thermal_failure_default _ (by decide)).1

/-! ## C2: the refresh scheduler gate -/

/-- C2: a tick with `now − last_refresh < interval` and no pending
forced-refresh keystroke invokes no provider and leaves the six cached
sample fields and `last_refresh` unchanged; conversely a tick that
completes its body (no quit keystroke) with `now − last_refresh ≥
interval`, or with a pending forced-refresh keystroke (given a clock
that has passed the 10 s mark, as `time.time()` always has), invokes all
six providers. -/
theorem scheduler_gate (st : LoopState) (i : TickInput) :
    (i.key ≠ KeyIn.keyR → i.now - st.last_update < update_interval →
      (tick st i).invoked = [] ∧ sampleEq (tick st i).state st ∧
      (tick st i).state.last_update = st.last_update) ∧
    (i.key ≠ KeyIn.keyQ → 0 ≤ st.last_update →
      (update_interval ≤ i.now - st.last_update ∨
        (i.key = KeyIn.keyR ∧ update_interval ≤ i.now)) →
      (tick st i).invoked = allProviders) := by
  constructor
  · intro hr hlt
    cases hk : i.key with
    | keyQ =>
      simp [tick, hk, sampleEq]
    | keyR => exact absurd hk hr
    | keyOther =>
      rw [tick]
      simp only [hk]
      rw [if_neg (by simpa using not_le.mpr hlt)]
      simp [sampleEq]
  · intro hq hlu hdue
    cases hk : i.key with
    | keyQ => exact absurd hk hq
    | keyR =>
      rw [tick]
      simp only [hk]
      rw [if_pos]
      · have h10 : update_interval ≤ i.now := by
          cases hdue with
          | inl h => unfold update_interval at h ⊢; linarith
          | inr h => exact h.2
        simpa using h10
    | keyOther =>
      rw [tick]
      simp only [hk]
      rw [if_pos]
      · cases hdue with
        | inl h => simpa using h
        | inr h => simp [hk] at h

/-- Witness for C2: 5 s after a refresh nothing is invoked and the cache
survives; 11 s after it all six providers run. -/
theorem scheduler_gate_witness :
    ((tick stCached iIdle).invoked = [] ∧
      sampleEq (tick stCached iIdle).state stCached ∧
      (tick stCached iIdle).state.last_update = stCached.last_update) ∧
    (tick stCached iDue).invoked = allProviders := by
  constructor
  · exact (scheduler_gate stCached iIdle).1 (by decide)
      (by show (105 : ℚ) - 100 < update_interval; rw [update_interval]; norm_num)
  · exact (scheduler_gate stCached iDue).2 (by decide)
      (by show (0 : ℚ) ≤ 100; norm_num)
      (Or.inl (by show update_interval ≤ (111 : ℚ) - 100; rw [update_interval]; norm_num))

/-! ## C8: the refresh commit -/

/-- C8 counterexample: on a refresh whose six provider calls take 3 s
of wall-clock time, the batch commit happens at instant 103 but
`last_refresh` is set to 100 — the time read *before* the providers ran,
an earlier time than the commit. -/
theorem last_update_is_precommit_time :
    (tick initState iLong).commitTime = some 103 ∧
    (tick initState iLong).state.last_update = 100 ∧
    (tick initState iLong).state.last_update ≠ 103 := by
  with_unfolding_all decide

/-- C8 (amended): on every refresh the six providers are invoked in the
one fixed order battery, pmset, thermal, cpu, memory, disk; their
results are committed to the loop state as one atomic batch; and
`last_refresh` is set to the time read at the top of the tick — the time
*before* the providers ran — not to the later instant at which the batch
is committed. -/
theorem refresh_commit (st : LoopState) (i : TickInput)
    (hq : i.key ≠ KeyIn.keyQ)
    (h : update_interval ≤ i.now - (if i.key = KeyIn.keyR then 0 else st.last_update)) :
    (tick st i).invoked = allProviders ∧ isBatch i.env (tick st i).state ∧
    (tick st i).state.last_update = i.now ∧
    (tick st i).commitTime = some (i.now + i.provDur) := by
  cases hk : i.key with
  | keyQ => exact absurd hk hq
  | keyR =>
    rw [hk] at h
    rw [tick]
    simp only [hk]
    rw [if_pos (by simpa using h)]
    exact ⟨rfl, ⟨rfl, rfl, rfl, rfl, rfl, rfl⟩, rfl, rfl⟩
  | keyOther =>
    rw [hk] at h
    rw [tick]
    simp only [hk]
    rw [if_pos (by simpa using h)]
    exact ⟨rfl, ⟨rfl, rfl, rfl, rfl, rfl, rfl⟩, rfl, rfl⟩

/-- Witness for C8 (amended) at the due tick 11 s past the cache. -/
theorem refresh_commit_witness :
    (tick stCached iDue).invoked = allProviders ∧
    isBatch sample0 (tick stCached iDue).state ∧
    (tick stCached iDue).state.last_update = 111 := by
  have h := refresh_commit stCached iDue (by decide)
    (by show update_interval ≤ (111 : ℚ) - (if iDue.key = KeyIn.keyR then 0 else (100 : ℚ))
        rw [if_neg (by decide), update_interval]
        norm_num)
  exact ⟨h.1, h.2.1, h.2.2.1⟩

/-! ## C1: batch consistency of the loop state -/

/-- A single iteration either leaves all six sample fields untouched or
commits the full batch of its own tick. -/
lemma tick_step (st : LoopState) (i : TickInput) :
    sampleEq (tick st i).state st ∨ isBatch i.env (tick st i).state := by
  cases hk : i.key with
  | keyQ =>
    left
    simp [tick, hk, sampleEq]
  | keyR =>
    rw [tick]
    simp only [hk]
    by_cases hc : update_interval ≤ i.now - (0 : ℚ)
    · rw [if_pos (by simpa using hc)]
      right
      exact ⟨rfl, rfl, rfl, rfl, rfl, rfl⟩
    · rw [if_neg (by simpa using hc)]
      left
      exact ⟨rfl, rfl, rfl, rfl, rfl, rfl⟩
  | keyOther =>
    rw [tick]
    simp only [hk]
    by_cases hc : update_interval ≤ i.now - st.last_update
    · rw [if_pos (by simpa using hc)]
      right
      exact ⟨rfl, rfl, rfl, rfl, rfl, rfl⟩
    · rw [if_neg (by simpa using hc)]
      left
      exact ⟨rfl, rfl, rfl, rfl, rfl, rfl⟩

/-- An iteration that rendered left a set `battery` field. -/
lemma tick_rendered_battery (st : LoopState) (i : TickInput)
    (h : (tick st i).rendered = true) : (tick st i).state.battery.isSome = true := by
  cases hk : i.key with
  | keyQ => simp [tick, hk] at h
  | keyR =>
    rw [tick] at h ⊢
    simp only [hk] at h ⊢
    by_cases hc : update_interval ≤ i.now - (0 : ℚ)
    · rw [if_pos (by simpa using hc)]
      simp
    · rw [if_neg (by simpa using hc)] at h ⊢
      simpa using h
  | keyOther =>
    rw [tick] at h ⊢
    simp only [hk] at h ⊢
    by_cases hc : update_interval ≤ i.now - st.last_update
    · rw [if_pos (by simpa using hc)]
      simp
    · rw [if_neg (by simpa using hc)] at h ⊢
      simpa using h

/-- An iteration that broke out of the loop did not render. -/
lemma tick_quit_not_rendered (st : LoopState) (i : TickInput)
    (h : (tick st i).quit = true) : (tick st i).rendered = false := by
  cases hk : i.key with
  | keyQ => simp [tick, hk]
  | keyR =>
    rw [tick] at h
    simp only [hk] at h
    by_cases hc : update_interval ≤ i.now - (0 : ℚ)
    · rw [if_pos (by simpa using hc)] at h
      exact Bool.noConfusion h
    · rw [if_neg (by simpa using hc)] at h
      exact Bool.noConfusion h
  | keyOther =>
    rw [tick] at h
    simp only [hk] at h
    by_cases hc : update_interval ≤ i.now - st.last_update
    · rw [if_pos (by simpa using hc)] at h
      exact Bool.noConfusion h
    · rw [if_neg (by simpa using hc)] at h
      exact Bool.noConfusion h

/-- The batch-consistency invariant relative to the inputs seen so far:
either everything is still unset, or the six fields hold exactly the
provider batch of one single already-seen tick. -/
def Inv (pre : List TickInput) (st : LoopState) : Prop :=
  allUnset st ∨ ∃ i ∈ pre, isBatch i.env st

lemma allUnset_of_sampleEq {st' st : LoopState} (h : sampleEq st' st)
    (hu : allUnset st) : allUnset st' := by
  obtain ⟨h1, h2, h3, h4, h5, h6⟩ := h
  obtain ⟨u1, u2, u3, u4, u5, u6⟩ := hu
  exact ⟨h1.trans u1, h2.trans u2, h3.trans u3, h4.trans u4, h5.trans u5, h6.trans u6⟩

lemma isBatch_of_sampleEq {e : Samples} {st' st : LoopState} (h : sampleEq st' st)
    (hb : isBatch e st) : isBatch e st' := by
  obtain ⟨h1, h2, h3, h4, h5, h6⟩ := h
  obtain ⟨b1, b2, b3, b4, b5, b6⟩ := hb
  exact ⟨h1.trans b1, h2.trans b2, h3.trans b3, h4.trans b4, h5.trans b5, h6.trans b6⟩

lemma Inv_mono {pre pre' : List TickInput} {st : LoopState}
    (hsub : ∀ i ∈ pre, i ∈ pre') (h : Inv pre st) : Inv pre' st := by
  cases h with
  | inl h => exact Or.inl h
  | inr h =>
    obtain ⟨i, hi, hb⟩ := h
    exact Or.inr ⟨i, hsub i hi, hb⟩

lemma Inv_step {pre : List TickInput} {st : LoopState} (i : TickInput)
    (h : Inv pre st) : Inv (pre ++ [i]) (tick st i).state := by
  cases tick_step st i with
  | inl he =>
    refine Inv_mono (fun j hj => List.mem_append_left _ hj) ?_
    cases h with
    | inl hu => exact Or.inl (allUnset_of_sampleEq he hu)
    | inr hb =>
      obtain ⟨j, hj, hbj⟩ := hb
      exact Or.inr ⟨j, hj, isBatch_of_sampleEq he hbj⟩
  | inr hb =>
    exact Or.inr ⟨i, List.mem_append_right _ (List.mem_singleton_self i), hb⟩

lemma allUnset_battery_none {st : LoopState} (h : allUnset st) :
    st.battery = none := h.1

/-- The run/trace invariant: starting from any state satisfying the
invariant for the inputs already consumed, the final state satisfies it
for all inputs, and every iteration that rendered saw the full batch of
one single input. -/
lemma run_trace_inv (inputs : List TickInput) :
    ∀ (st : LoopState) (pre : List TickInput), Inv pre st →
      Inv (pre ++ inputs) (run st inputs) ∧
      ∀ o ∈ trace st inputs, o.rendered = true →
        ∃ i ∈ pre ++ inputs, isBatch i.env o.state := by
  induction inputs with
  | nil =>
    intro st pre h
    constructor
    · simpa [run] using h
    · intro o ho
      simp [trace] at ho
  | cons i rest ih =>
    intro st pre h
    have hstep : Inv (pre ++ [i]) (tick st i).state := Inv_step i h
    by_cases hq : (tick st i).quit = true
    · rw [run, trace]
      rw [if_pos hq, if_pos hq]
      constructor
      · exact Inv_mono (fun j hj => List.mem_append_left _ hj) h
      · intro o ho hr
        rw [List.mem_singleton] at ho
        rw [ho] at hr
        rw [tick_quit_not_rendered st i hq] at hr
        exact Bool.noConfusion hr
    · rw [run, trace]
      rw [if_neg hq, if_neg hq]
      have hmain := ih (tick st i).state (pre ++ [i]) hstep
      have hlift : ∀ j, j ∈ (pre ++ [i]) ++ rest → j ∈ pre ++ i :: rest := by
        intro j hj
        rw [List.append_assoc, List.singleton_append] at hj
        exact hj
      constructor
      · refine Inv_mono hlift ?_
        exact hmain.1
      · intro o ho hr
        rw [List.mem_cons] at ho
        cases ho with
        | inl ho =>
          subst ho
          have hbat := tick_rendered_battery st i hr
          cases hstep with
          | inl hu =>
            rw [allUnset_battery_none hu] at hbat
            exact Bool.noConfusion hbat
          | inr hb =>
            obtain ⟨j, hj, hbj⟩ := hb
            exact ⟨j, hlift j (List.mem_append_left _ hj), hbj⟩
        | inr ho =>
          obtain ⟨j, hj, hbj⟩ := hmain.2 o ho hr
          exact ⟨j, hlift j hj, hbj⟩

/-- C1: over every sequence of loop ticks from the initial empty state,
the six sample fields are either all unset (before the first refresh) or
all populated from the provider batch of one single tick — never a mix
of samples from two refreshes — and every iteration that rendered did so
against one such complete batch (rendering is skipped while the state is
empty). -/
theorem batch_consistency (inputs : List TickInput) :
    (allUnset (run initState inputs) ∨
      ∃ i ∈ inputs, isBatch i.env (run initState inputs)) ∧
    ∀ o ∈ trace initState inputs, o.rendered = true →
      ∃ i ∈ inputs, isBatch i.env o.state := by
  have h := run_trace_inv inputs initState []
    (Or.inl ⟨rfl, rfl, rfl, rfl, rfl, rfl⟩)
  rw [List.nil_append] at h
  exact h

/-- A tick whose refresh condition fires renders. -/
lemma tick_rendered_of_due (st : LoopState) (i : TickInput)
    (hq : i.key ≠ KeyIn.keyQ)
    (h : update_interval ≤ i.now - (if i.key = KeyIn.keyR then 0 else st.last_update)) :
    (tick st i).rendered = true := by
  cases hk : i.key with
  | keyQ => exact absurd hk hq
  | keyR =>
    rw [hk] at h
    rw [tick]
    simp only [hk]
    rw [if_pos (by simpa using h)]
  | keyOther =>
    rw [hk] at h
    rw [tick]
    simp only [hk]
    rw [if_pos (by simpa using h)]

/-- A run over exactly one tick input traces that one iteration. -/
lemma trace_singleton (st : LoopState) (i : TickInput) :
    trace st [i] = [tick st i] := by
  simp only [trace]
  split <;> rfl

/-- Witness for C1: a first tick at t = 50 refreshes and renders, and
the rendered state is exactly that tick's batch. -/
theorem batch_consistency_witness :
    ∃ i ∈ [iFresh], isBatch i.env (tick initState iFresh).state := by
  refine (batch_consistency [iFresh]).2 (tick initState iFresh) ?_ ?_
  · rw [trace_singleton]
    exact List.mem_singleton_self _
  · refine tick_rendered_of_due initState iFresh (by decide) ?_
    show update_interval ≤ (50 : ℚ) -
      (if iFresh.key = KeyIn.keyR then 0 else initState.last_update)
    rw [if_neg (by decide)]
    show update_interval ≤ (50 : ℚ) - 0
    rw [update_interval]
    norm_num

end MacJet
